import Mathlib

/-!
# Verification of the mastogon persistence core (`internal/db/db.go`)

A shallow embedding of the `db` package of `capsulesocial/mastogon`: an
in-memory ActivityPub database keyed by ActivityPub IDs, with a per-ID lock
registry.  The Go code keeps two `sync.Map`s (`content` and `locks`) and a
configured `hostname`; here both maps are total functions from the key string
to an optional value, and every method is state-passing: it returns its Go
result together with the receiver state after the call, so that read-only
methods can be seen to return the state unchanged.

Go-specific behaviour that the embedding makes explicit:
* `sync.Map.LoadOrStore` is a single atomic check-and-insert; the concurrent
  first-acquisition model below treats it as one indivisible step.
* `sync.Mutex.Unlock` on a mutex that is not locked is a Go runtime panic
  ("sync: unlock of unlocked mutex"); the `UnlockOutcome` type records it.
* `url.URL.Host` preserves the case of the parsed authority; `==` on Go
  strings is case-sensitive byte equality.

Helper methods that the source declares and calls but leaves unimplemented
("left as an exercise for the reader") are modelled from the spec and marked
as such in their doc comments.
-/

namespace Mastogon

/-- Go `net/url.URL`, reduced to the components the `db` package reads:
`Host` (case-preserving, as `url.Parse` leaves it) and the canonical string
form returned by `URL.String()` (used as the map key everywhere). -/
structure URL where
  scheme : String
  host : String
  path : String
  deriving DecidableEq

/-- `url.URL.String()`: the canonical text of the identifier; the Go code
keys both `sync.Map`s by this string. -/
def URL.toString (u : URL) : String := u.scheme ++ "://" ++ u.host ++ u.path

/-- A `vocab.ActivityStreamsOrderedCollection`, reduced to what the `db`
package reads: its `id` property (may be absent) and its `orderedItems`
property, a sequence of item references (identifiers), which may itself be
absent ("Properties may be nil, if non-existent!"). -/
structure OrderedCollection where
  ocId : Option URL
  orderedItems : Option (List URL)
  deriving DecidableEq

/-- A `vocab.Type` payload as the `db` package distinguishes them: either an
OrderedCollection (what `getOrderedCollection` expects to find) or any other
ActivityStreams object, of which the package only ever reads the `id`. -/
inductive Document where
  | obj (docId : Option URL)
  | collection (oc : OrderedCollection)
  deriving DecidableEq

/-- The stored unit of `m.content` (the source names the struct `DBContent`;
its `Get` method writes the struct's go-fed-tutorial name `content` in the
type assertion, the only content struct in the package). -/
structure DBContent where
  data : Document
  isLocal : Bool
  deriving DecidableEq

/-- The `DB` receiver: `content` and `locks` are the two `sync.Map`s, keyed
by `id.String()`.  A lock entry `some held` is an installed `*sync.Mutex`
whose locked state is `held`; `none` means no mutex was ever installed. -/
structure DB where
  content : String → Option DBContent
  locks : String → Option Bool
  hostname : String

/-- The error values the methods return (`errors.New(...)` in the source) and
the error `pub.GetId` propagates out of `Create`, which the spec calls
`InvalidDocument`. -/
inductive DBError where
  | invalidDocument
  | getFailed
  | missingIdInUnlock
  | notFound
  deriving DecidableEq

namespace pub

/-- `pub.GetId(asType)`: extracts the ActivityStreams `id` property of a
document; `none` embeds the error return for a document with no id. -/
def GetId : Document → Option URL
  | .obj i => i
  | .collection oc => oc.ocId

/-- `pub.ToId(iter)`: resolves an `orderedItems` iterator entry to its IRI.
Item references are modelled as bare identifiers (the stored collections hold
item references, per the data model), so resolution always succeeds. -/
def ToId (item : URL) : Option URL := some item

end pub

/-- `DB.Construct` (the constructor from the package's earlier revision,
called from `cmd` with two fresh `sync.Map`s and hostname `"localhost"`). -/
def DB.Construct (content : String → Option DBContent)
    (locks : String → Option Bool) (hostname : String) : DB :=
  ⟨content, locks, hostname⟩

/-- The database as `cmd/rootCmd` builds it: empty maps, hostname
`"localhost"`. -/
def initialDB : DB := DB.Construct (fun _ => none) (fun _ => none) "localhost"

/-- `Owns`: `return id.Host == m.hostname, nil`.  Go string `==` is
case-sensitive; the error result is always `nil` and is omitted. -/
def DB.Owns (m : DB) (id : URL) : Bool × DB :=
  (id.host == m.hostname, m)

/-- `Exists`: `_, exists = m.content.Load(id.String())`. -/
def DB.Exists (m : DB) (id : URL) : Bool × DB :=
  ((m.content id.toString).isSome, m)

/-- `Get`: load `id.String()` from `m.content`; error (`"Get failed"`) if
absent, otherwise return the entry's `data` field. -/
def DB.Get (m : DB) (id : URL) : Except DBError Document × DB :=
  match m.content id.toString with
  | none => (.error .getFailed, m)
  | some con => (.ok con.data, m)

/-- `Create`: `pub.GetId(asType)`, returning its error if the document has no
id; classify locality with `Owns`; store `&DBContent{data, isLocal}` at
`id.String()` (a `sync.Map.Store`, i.e. an overwrite upsert). -/
def DB.Create (m : DB) (asType : Document) : Option DBError × DB :=
  match pub.GetId asType with
  | none => (some .invalidDocument, m)
  | some id =>
      let owns := (m.Owns id).1
      let con : DBContent := ⟨asType, owns⟩
      (none, { m with content := fun k =>
        if k == id.toString then some con else m.content k })

/-- `Update`: `return m.Create(c, asType)` — literally delegates. -/
def DB.Update (m : DB) (asType : Document) : Option DBError × DB :=
  m.Create asType

/-- `Delete` exactly as written in the source: its body is
`m.Delete(id.String()); return nil`, i.e. it calls *itself* (the evident
intent, per its comment "Remove a payload in our in-memory map", was
`m.content.Delete(id.String())`).  The self-call makes the method an
unconditional infinite recursion, embedded with explicit fuel: `none` means
the computation has not produced a result within `fuel` unfoldings. -/
def DB.Delete (fuel : Nat) (m : DB) (id : URL) : Option (Option DBError × DB) :=
  match fuel with
  | 0 => none
  | fuel + 1 =>
      match DB.Delete fuel m id with
      | none => none
      | some (_, m') => some (none, m')

/-- What a call to `Unlock` does: returns `nil`, returns an error, or hits
the Go runtime panic `sync.Mutex.Unlock` raises on an unlocked mutex. -/
inductive UnlockOutcome where
  | ok
  | err (e : DBError)
  | panics
  deriving DecidableEq

/-- `Lock`, sequential view: optimistically create a locked mutex and
`LoadOrStore` it; if one was already installed, block on the existing mutex.
`none` embeds the blocking case (the installed mutex is currently held), in
which the sequential call never returns. -/
def DB.Lock (m : DB) (id : URL) : Option DB :=
  match m.locks id.toString with
  | none => some { m with locks := fun k =>
      if k == id.toString then some true else m.locks k }
  | some held =>
      if held then none
      else some { m with locks := fun k =>
        if k == id.toString then some true else m.locks k }

/-- `Unlock`: `Load` the mutex; if absent return
`errors.New("Missing an id in Unlock")`; otherwise `mu.Unlock()`, which
frees a held mutex and panics on an unheld one (Go runtime semantics of
`sync.Mutex.Unlock`). -/
def DB.Unlock (m : DB) (id : URL) : UnlockOutcome × DB :=
  match m.locks id.toString with
  | none => (.err .missingIdInUnlock, m)
  | some held =>
      if held then
        (.ok, { m with locks := fun k =>
          if k == id.toString then some false else m.locks k })
      else (.panics, m)

/-- Modelled from the spec: `getOrderedCollection` is declared but not
implemented in the source ("It is not implemented in this tutorial, and uses
the map m.content to do the lookup").  Per the spec it resolves the
identifier through the content table and yields the stored
OrderedCollection; an identifier that resolves to no document, or to a
document that is not an OrderedCollection, is `NotFound`. -/
def DB.getOrderedCollection (m : DB) (id : URL) : Except DBError OrderedCollection :=
  match m.content id.toString with
  | none => .error .notFound
  | some con =>
      match con.data with
      | .collection oc => .ok oc
      | .obj _ => .error .notFound

/-- The `InboxContains` scan loop: for each iterator entry, `pub.ToId`;
propagate its error; compare the resolved IRI's string with the queried
`id.String()` and return `true` on the first match. -/
def inboxScan : List URL → URL → Except DBError Bool
  | [], _ => .ok false
  | iter :: rest, id =>
      match pub.ToId iter with
      | none => .error .invalidDocument
      | some iterId =>
          if iterId.toString == id.toString then .ok true
          else inboxScan rest id

/-- `InboxContains`: fetch the OrderedCollection at `inbox`; if its
`orderedItems` property is nil return `false` with no error; otherwise scan
the items for an exact id match. -/
def DB.InboxContains (m : DB) (inbox id : URL) : Except DBError Bool × DB :=
  match m.getOrderedCollection inbox with
  | .error e => (.error e, m)
  | .ok oc =>
      match oc.orderedItems with
      | none => (.ok false, m)
      | some items => (inboxScan items id, m)

/-- An `OrderedCollectionPage` as `SetInbox` consumes it: the IRI of the full
collection it is a view of, the window of the full collection it was read
from (start position and the length of that slice), and the page's items as
submitted back. -/
structure OrderedCollectionPage where
  partOf : URL
  startIndex : Nat
  spanLen : Nat
  pageItems : List URL

/-- Modelled from the spec: `applyDiffOrderedCollection` is declared but not
implemented in the source ("Implementation is left as an exercise for the
reader").  Per the spec it computes the edit implied by comparing the page
with the corresponding slice of the stored collection and applies it to the
full collection, never a blind overwrite.  Realised as window replacement:
the slice the page was read from is replaced by the page's items, which
satisfies the spec's (a) items outside the window untouched, (b) items new in
the page inserted at the corresponding position, (c) items dropped from the
page removed; the page's order is taken as authoritative inside the window. -/
def DB.applyDiffOrderedCollection (_ : DB) (stored : OrderedCollection)
    (page : OrderedCollectionPage) : OrderedCollection :=
  let old := stored.orderedItems.getD []
  let merged := old.take page.startIndex ++ page.pageItems
    ++ old.drop (page.startIndex + page.spanLen)
  { stored with orderedItems := some merged }

/-- Modelled from the spec: `saveToContent` is declared but not implemented
in the source; per the spec the merged collection is persisted "via
`ResourceStore.Update`". -/
def DB.saveToContent (m : DB) (oc : OrderedCollection) : Option DBError × DB :=
  m.Update (.collection oc)

/-- `SetInbox`: load the stored full OrderedCollection, merge the page into
it with `applyDiffOrderedCollection`, persist with `saveToContent`.  (The
source reads the collection IRI from an undeclared `inboxIRI`; the page's
`partOf` IRI is the collection the page views.) -/
def DB.SetInbox (m : DB) (page : OrderedCollectionPage) : Option DBError × DB :=
  match m.getOrderedCollection page.partOf with
  | .error e => (some e, m)
  | .ok storedInbox =>
      let updatedInbox := m.applyDiffOrderedCollection storedInbox page
      m.saveToContent updatedInbox

/-!
## Concurrent first-time acquisition (`Lock`, lines 35–50)

The race the spec singles out is between the `LoadOrStore` calls of several
goroutines that call `Lock` on the same id before any mutex is installed.
Each goroutine first allocates its own fresh `*sync.Mutex` (named here by the
goroutine's index) and locks it; the only step that touches shared state is
`m.locks.LoadOrStore(id.String(), mu)`, which Go guarantees to be one atomic
check-and-insert.  An execution is therefore determined by the order in
which the goroutines' `LoadOrStore` steps hit the registry.
-/

/-- One goroutine's atomic `LoadOrStore` on the (single-id) lock registry:
if no mutex is installed, install our own and proceed holding it; otherwise
leave the registry unchanged and block on the installed mutex.  Returns the
new registry and the mutex this goroutine ends up holding or blocked on. -/
def lockLoadOrStore (reg : Option Nat) (mu : Nat) : Option Nat × Nat :=
  match reg with
  | none => (some mu, mu)
  | some existing => (some existing, existing)

/-- Run the `LoadOrStore` steps of the goroutines listed in `order` (each
entry the goroutine's index, which also names its freshly allocated mutex)
against the registry.  Returns the final registry and, per goroutine, the
mutex it ended up on. -/
def runFirstAcquires : Option Nat → List Nat → Option Nat × List (Nat × Nat)
  | reg, [] => (reg, [])
  | reg, i :: rest =>
      let step := lockLoadOrStore reg i
      let tail := runFirstAcquires step.1 rest
      (tail.1, (i, step.2) :: tail.2)

theorem runFirstAcquires_installed (mtx : Nat) (order : List Nat) :
    (runFirstAcquires (some mtx) order).1 = some mtx ∧
      ∀ p ∈ (runFirstAcquires (some mtx) order).2, p.2 = mtx := by
  induction order with
  | nil => exact ⟨rfl, by simp [runFirstAcquires]⟩
  | cons i rest ih =>
      refine ⟨by simpa [runFirstAcquires, lockLoadOrStore] using ih.1, ?_⟩
      intro p hp
      simp only [runFirstAcquires, lockLoadOrStore, List.mem_cons] at hp
      rcases hp with h | h
      · simp [h]
      · exact ih.2 p h

/-!
## The claims
-/

/-- C1: when several execution contexts call `Lock` concurrently for the
same identifier before any lock entry exists, then whatever the order in
which their atomic `LoadOrStore` steps reach the registry, exactly one mutex
is installed (the first mover's, and the registry never changes afterwards)
and every racing acquirer ends up holding or blocked on that single mutex —
never on distinct instances. -/
theorem lock_first_acquisition_single_mutex (i : Nat) (rest : List Nat) :
    (runFirstAcquires none (i :: rest)).1 = some i ∧
      ∀ p ∈ (runFirstAcquires none (i :: rest)).2, p.2 = i := by
  have h := runFirstAcquires_installed i rest
  refine ⟨by simpa [runFirstAcquires, lockLoadOrStore] using h.1, ?_⟩
  intro p hp
  simp only [runFirstAcquires, lockLoadOrStore, List.mem_cons] at hp
  rcases hp with h2 | h2
  · simp [h2]
  · exact h.2 p h2

/-- C4 counterexample: the claim says `Owns` compares hosts
case-insensitively and in particular returns `true` for
`https://OTHER.example/users/x` against hostname `other.example`; the code's
`id.Host == m.hostname` is a case-sensitive Go string comparison and returns
`false` there. -/
theorem owns_case_insensitive_counterexample :
    ((DB.Construct (fun _ => none) (fun _ => none) "other.example").Owns
      ⟨"https", "OTHER.example", "/users/x"⟩).1 = false := by
  decide

/-- C4 (amended): `Owns` returns `true` iff the identifier's host component
is byte-for-byte (case-sensitively) equal to the configured hostname; the
query `https://OTHER.example/users/x` therefore returns `false` against both
`other.example` and `elsewhere.example`. -/
theorem owns_iff_host_eq_hostname (m : DB) (id : URL) :
    ((m.Owns id).1 = true ↔ id.host = m.hostname) ∧
      ((DB.Construct (fun _ => none) (fun _ => none) "elsewhere.example").Owns
        ⟨"https", "OTHER.example", "/users/x"⟩).1 = false := by
  exact ⟨by simp [DB.Owns], by decide⟩

/-- C7: `Create` fails (with the `InvalidDocument` error propagated from
`pub.GetId`) precisely when the document carries no extractable identifier,
and a failing `Create` leaves the database — in particular the content
table — exactly unchanged. -/
theorem create_fails_iff_no_id (m : DB) (doc : Document) :
    ((m.Create doc).1 = some DBError.invalidDocument ↔ pub.GetId doc = none) ∧
      (pub.GetId doc = none → (m.Create doc).2 = m) := by
  constructor
  · cases h : pub.GetId doc <;> simp [DB.Create, h]
  · intro h
    simp [DB.Create, h]

/-- C6: round-trip — if a document carries an extractable identifier, then
`Create` succeeds and `Get` at that identifier returns the very document
that was stored. -/
theorem create_get_roundtrip (m : DB) (doc : Document) (id : URL)
    (h : pub.GetId doc = some id) :
    (m.Create doc).1 = none ∧ ((m.Create doc).2.Get id).1 = Except.ok doc := by
  simp [DB.Create, h, DB.Get]

/-- Witness for C6: creating a concrete note on the `cmd` package's initial
database and reading it back at its own identifier yields the note. -/
theorem create_get_roundtrip_witness :
    (initialDB.Create (Document.obj (some ⟨"https", "localhost", "/notes/1"⟩))).1 = none ∧
      ((initialDB.Create (Document.obj (some ⟨"https", "localhost", "/notes/1"⟩))).2.Get
        ⟨"https", "localhost", "/notes/1"⟩).1
        = Except.ok (Document.obj (some ⟨"https", "localhost", "/notes/1"⟩)) :=
  create_get_roundtrip initialDB _ _ rfl

/-- C9: `Update` is the very same operation as `Create` — the source body is
`return m.Create(c, asType)` — and both are a full-overwrite upsert: when
the document has identifier `id`, the content table afterwards maps
`id.String()` to exactly the new entry (with locality recomputed from the
hostname), whatever was stored there before; since the table is a map there
is at most one entry per identifier. -/
theorem update_eq_create_upsert (m : DB) (doc : Document) :
    m.Update doc = m.Create doc ∧
      ∀ id, pub.GetId doc = some id →
        ((m.Create doc).2.content id.toString
          = some ⟨doc, id.host == m.hostname⟩
        ∧ ∀ k, k ≠ id.toString → (m.Create doc).2.content k = m.content k) := by
  refine ⟨rfl, ?_⟩
  intro id h
  refine ⟨by simp [DB.Create, h, DB.Owns], ?_⟩
  intro k hk
  simp [DB.Create, h, DB.Owns, hk]

/-- C10: the query operations `Exists`, `Get`, `Owns` and `InboxContains`
only `Load` from the two registries; the database state each returns —
content table, lock registry and hostname alike — is the input state. -/
theorem readers_are_pure (m : DB) (id inbox : URL) :
    (m.Exists id).2 = m ∧ (m.Get id).2 = m ∧ (m.Owns id).2 = m ∧
      (m.InboxContains inbox id).2 = m := by
  refine ⟨rfl, ?_, rfl, ?_⟩
  · cases h : m.content id.toString <;> simp [DB.Get, h]
  · cases h : m.getOrderedCollection inbox with
    | error e => simp [DB.InboxContains, h]
    | ok oc => cases h2 : oc.orderedItems <;> simp [DB.InboxContains, h, h2]

/-- C5 (code bug): `Delete` as written never completes, for any identifier
and any database state — its body calls `m.Delete` itself (a slip for
`m.content.Delete`), so no amount of fuel produces a result; in particular
it never removes the `ContentEntry` and `Exists` can never be observed
`false` afterwards, contradicting the method's own comment "Remove a
payload in our in-memory map". -/
theorem delete_as_written_never_completes (fuel : Nat) (m : DB) (id : URL) :
    DB.Delete fuel m id = none := by
  induction fuel with
  | zero => rfl
  | succ n ih => simp [DB.Delete, ih]

/-- A concrete identifier used to exercise the lock registry. -/
def uAlice : URL := ⟨"https", "localhost", "/users/alice"⟩

/-- The initial database after `Lock` on `uAlice` (the acquisition
succeeds, installing a held mutex). -/
def dbAliceLocked : DB := (initialDB.Lock uAlice).getD initialDB

/-- `dbAliceLocked` after `Unlock` on `uAlice`: the lock entry still exists
in the registry but the mutex is no longer held. -/
def dbAliceReleased : DB := (dbAliceLocked.Unlock uAlice).2

/-- C2 counterexample: in the reachable state where the identifier's lock
entry exists but is not currently held (acquire then release), a second
`Unlock` does not return the `LockNotHeld` error the claim requires — it
unlocks an unheld `sync.Mutex`, which is a Go runtime panic. -/
theorem unlock_not_held_counterexample :
    (initialDB.Lock uAlice).isSome = true ∧
      (dbAliceLocked.Unlock uAlice).1 = UnlockOutcome.ok ∧
      dbAliceReleased.locks uAlice.toString = some false ∧
      (dbAliceReleased.Unlock uAlice).1 = UnlockOutcome.panics ∧
      (dbAliceReleased.Unlock uAlice).1 ≠ UnlockOutcome.err DBError.missingIdInUnlock := by
  decide

/-- C2 (amended): `Unlock` on an identifier with no lock entry at all
returns the `"Missing an id in Unlock"` error and leaves the state
unchanged (it neither panics nor silently succeeds); but when the entry
exists and is not currently held, `Unlock` does not return an error — it
panics, by the Go runtime semantics of unlocking an unheld mutex.  Only a
held entry is released successfully. -/
theorem unlock_case_analysis (m : DB) (id : URL) :
    (m.locks id.toString = none →
        (m.Unlock id).1 = UnlockOutcome.err DBError.missingIdInUnlock ∧
          (m.Unlock id).2 = m) ∧
      (m.locks id.toString = some false →
        (m.Unlock id).1 = UnlockOutcome.panics) ∧
      (m.locks id.toString = some true →
        (m.Unlock id).1 = UnlockOutcome.ok) := by
  refine ⟨fun h => ?_, fun h => ?_, fun h => ?_⟩ <;> simp [DB.Unlock, h]

/-- `inboxScan` returns no error on item references and decides exactly
whether some item's identifier string matches the queried one. -/
theorem inboxScan_eq_any (items : List URL) (id : URL) :
    inboxScan items id
      = Except.ok (items.any fun it => it.toString == id.toString) := by
  induction items with
  | nil => rfl
  | cons iter rest ih =>
      by_cases h : iter.toString == id.toString
      · simp [inboxScan, pub.ToId, h]
      · simp only [eq_iff_iff, iff_false] at h
        simp [inboxScan, pub.ToId, h, ih]

/-- C8: on a stored OrderedCollection inbox, `InboxContains` returns `true`
precisely when some element of the collection's ordered-items sequence has
an identifier exactly (string-)equal to the queried identifier, and it
returns `false` — not an error — when the item sequence is absent or
empty. -/
theorem inboxContains_iff_member (m : DB) (inbox itemId : URL)
    (oc : OrderedCollection) (lcl : Bool)
    (h : m.content inbox.toString = some ⟨Document.collection oc, lcl⟩) :
    ((m.InboxContains inbox itemId).1 = Except.ok true ↔
        ∃ it ∈ oc.orderedItems.getD [], it.toString = itemId.toString) ∧
      (oc.orderedItems = none ∨ oc.orderedItems = some [] →
        (m.InboxContains inbox itemId).1 = Except.ok false) := by
  constructor
  · cases h2 : oc.orderedItems with
    | none => simp [DB.InboxContains, DB.getOrderedCollection, h, h2]
    | some items =>
        simp [DB.InboxContains, DB.getOrderedCollection, h, h2,
          inboxScan_eq_any, List.any_eq_true]
  · rintro (h2 | h2) <;>
      simp [DB.InboxContains, DB.getOrderedCollection, h, h2, inboxScan]

/-- A concrete inbox collection holding one federated note, for the C8
witness. -/
def ocNote : OrderedCollection :=
  ⟨some ⟨"https", "localhost", "/inbox"⟩,
    some [⟨"https", "remote.example", "/notes/7"⟩]⟩

/-- A database whose content table stores `ocNote` at its identifier. -/
def dbNote : DB :=
  ⟨fun k => if k == "https://localhost/inbox"
      then some ⟨Document.collection ocNote, true⟩ else none,
    fun _ => none, "localhost"⟩

/-- Witness for C8: the stored inbox contains the note that is in its
ordered-items sequence. -/
theorem inboxContains_iff_member_witness :
    (dbNote.InboxContains ⟨"https", "localhost", "/inbox"⟩
      ⟨"https", "remote.example", "/notes/7"⟩).1 = Except.ok true :=
  (inboxContains_iff_member dbNote ⟨"https", "localhost", "/inbox"⟩
      ⟨"https", "remote.example", "/notes/7"⟩ ocNote true (by decide)).1.mpr
    ⟨⟨"https", "remote.example", "/notes/7"⟩, by decide, rfl⟩

/-- A database storing one full OrderedCollection with the given items at
the given collection identifier (lock registry and hostname arbitrary). -/
def dbWithCollection (cid : URL) (items : List URL) (lcl : Bool)
    (lk : String → Option Bool) (hn : String) : DB :=
  ⟨fun k => if k == cid.toString
      then some ⟨Document.collection ⟨some cid, some items⟩, lcl⟩ else none,
    lk, hn⟩

/-- C3: the `SetPage` merge law on `SetInbox`.  With the full collection
`[a,b,c,d,e]` stored at `cid` and the page read from the window at
positions 1–2 (`[b,c]`) submitted back as `[b,x,c]`, `SetInbox` succeeds,
the persisted full collection is exactly `[a,b,x,c,d,e]` — `x` merged in
place, the items outside the page's window (`a`, `d`, `e`) untouched, all
relative order preserved, not an overwrite by the page's partial contents —
and `InboxContains cid x` is `true` afterwards. -/
theorem setInbox_merge_law (a b c d e x cid : URL) (lcl : Bool)
    (lk : String → Option Bool) (hn : String) :
    ((dbWithCollection cid [a, b, c, d, e] lcl lk hn).SetInbox
        ⟨cid, 1, 2, [b, x, c]⟩).1 = none ∧
      ((dbWithCollection cid [a, b, c, d, e] lcl lk hn).SetInbox
          ⟨cid, 1, 2, [b, x, c]⟩).2.content cid.toString
        = some ⟨Document.collection ⟨some cid, some [a, b, x, c, d, e]⟩,
            cid.host == hn⟩ ∧
      (((dbWithCollection cid [a, b, c, d, e] lcl lk hn).SetInbox
          ⟨cid, 1, 2, [b, x, c]⟩).2.InboxContains cid x).1 = Except.ok true := by
  refine ⟨?_, ?_, ?_⟩ <;>
    simp [dbWithCollection, DB.SetInbox, DB.getOrderedCollection,
      DB.applyDiffOrderedCollection, DB.saveToContent, DB.Update, DB.Create,
      DB.Owns, pub.GetId, DB.InboxContains, inboxScan_eq_any]

end Mastogon
